import Mathlib

/-!
Shallow embedding of the PhysicsFS GRP and MVL archive drivers
(src/archivers/grp.c, src/archivers/mvl.c).

Archive files are modelled as lists of bytes (`List Nat`, each element a
byte value).  C strings are modelled as the list of their bytes up to but
not including the terminating NUL.  32-bit unsigned arithmetic is modelled
on `Nat` with explicit reduction modulo 4294967296 where the C code can
wrap.  Platform-layer primitives (`__PHYSFS_platformRead`, `…Seek`) that a
file handle delegates to are passed in as function parameters describing
the outcome of the delegation.
-/

/-- Error states set through `__PHYSFS_setError` (the `ERR_*` constants
used by the two drivers). -/
inductive Err where
  | unsupportedArchive
  | noSuchFile
  | pastEndOfFile
  | invalidArgument
  | notSupported
  | readOnlyArchive
  | outOfMemory
deriving DecidableEq

deriving instance DecidableEq for Except

/-- One directory entry: `GRPentry` / `MVLentry` from the source (both
structs have exactly the fields `char name[13]; PHYSFS_uint32 startPos;
PHYSFS_uint32 size;`). -/
structure ArcEntry where
  name : List Nat
  startPos : Nat
  size : Nat
deriving DecidableEq

instance : Inhabited ArcEntry := ⟨⟨[], 0, 0⟩⟩

/-- Container state for a loaded GRP archive (`GRPinfo`); the `filename`
and `last_mod_time` bookkeeping fields play no role in the claims and are
omitted. -/
structure GRPinfo where
  entryCount : Nat
  entries : List ArcEntry
deriving DecidableEq

instance : Inhabited GRPinfo := ⟨⟨0, []⟩⟩

/-- Container state for a loaded MVL archive (`MVLinfo`). -/
structure MVLinfo where
  entryCount : Nat
  entries : List ArcEntry
deriving DecidableEq

instance : Inhabited MVLinfo := ⟨⟨0, []⟩⟩

/-- The 12 signature bytes `"KenSilverman"`. -/
def grpSignature : List Nat :=
  [75, 101, 110, 83, 105, 108, 118, 101, 114, 109, 97, 110]

/-- The 4 signature bytes `"DMVL"`. -/
def mvlSignature : List Nat := [68, 77, 86, 76]

/-- Little-endian decoding of a 4-byte field, as produced by reading a
`PHYSFS_uint32` and canonicalizing it with `PHYSFS_swapULE32`. -/
def decodeLE32 (bs : List Nat) : Nat :=
  bs.getD 0 0 + 256 * bs.getD 1 0 + 65536 * bs.getD 2 0 + 16777216 * bs.getD 3 0

/-- C `strcmp` on two NUL-free byte lists, returning the sign of the
comparison (the drivers only inspect the sign).  The end of a list plays
the role of the NUL terminator, which compares below every nonzero byte. -/
def strcmpBytes : List Nat → List Nat → Int
  | [], [] => 0
  | [], _ :: _ => -1
  | _ :: _, [] => 1
  | a :: as, b :: bs =>
      if a < b then -1 else if b < a then 1 else strcmpBytes as bs

/-- ASCII lower-casing of one byte. -/
def toLowerByte (b : Nat) : Nat := if 65 ≤ b ∧ b ≤ 90 then b + 32 else b

/-- Modelled from the spec: `__PHYSFS_platformStricmp` (platform layer,
not under src/) — a locale-independent case-folding comparison, i.e.
`strcmp` after ASCII lower-casing both arguments. -/
def stricmpBytes (a b : List Nat) : Int :=
  strcmpBytes (a.map toLowerByte) (b.map toLowerByte)

/-- Reinterpret a 32-bit unsigned value as `PHYSFS_sint32` (two's
complement). -/
def toSigned32 (n : Nat) : Int :=
  if n % 4294967296 < 2147483648 then ((n % 4294967296 : Nat) : Int)
  else ((n % 4294967296 : Nat) : Int) - 4294967296

/-- The initial upper search bound in `grp_find_entry` / `mvl_find_entry`:
the unsigned `entryCount - 1` cast to `PHYSFS_sint32`. -/
def searchInitHi (entryCount : Nat) : Int :=
  toSigned32 ((entryCount + 4294967295) % 4294967296)

/-- GRP name normalization (`grp_load_entries`): the raw 12-byte field is
NUL-terminated and then truncated at the first space, so the stored C
string is the prefix up to the first NUL or space byte. -/
def grpNormalizeName (raw : List Nat) : List Nat :=
  raw.takeWhile (fun b => b != 0 && b != 32)

/-- MVL name normalization (`mvl_load_entries`): the raw 13-byte field is
stored as read; the format NUL-pads it, so the C string is the prefix up
to the first NUL byte. -/
def mvlNormalizeName (raw : List Nat) : List Nat :=
  raw.takeWhile (fun b => b != 0)

/-- Outcome of `grp_open` / `mvl_open`.  `everOpened` records whether
`__PHYSFS_platformOpenRead` was called at all; `fhOpen` whether a raw
handle is still open when the call returns (the source closes it on every
failure path); `pos` is the handle's position on success; `count` the
decoded entry count. -/
structure OpenResult where
  ok : Bool
  err : Option Err
  everOpened : Bool
  fhOpen : Bool
  pos : Nat
  count : Nat
deriving DecidableEq

/-- Embedding of `grp_open` (grp.c:214-248) on an archive modelled by its
byte list.  Platform open of an existing byte list is modelled as
succeeding; a platform read of one n-byte object succeeds iff n bytes
remain.  On the goto failure paths the source stores `-1` into the
`PHYSFS_uint32` count, i.e. 4294967295. -/
def grp_open (file : List Nat) (forWriting : Bool) : OpenResult :=
  if forWriting then ⟨false, some .readOnlyArchive, false, false, 0, 0⟩
  else if file.length < 12 then ⟨false, none, true, false, 0, 4294967295⟩
  else if file.take 12 ≠ grpSignature then
    ⟨false, some .unsupportedArchive, true, false, 0, 4294967295⟩
  else if file.length < 16 then ⟨false, none, true, false, 0, 4294967295⟩
  else ⟨true, none, true, true, 16, decodeLE32 ((file.drop 12).take 4)⟩

/-- Embedding of `mvl_open` (mvl.c:217-251). -/
def mvl_open (file : List Nat) (forWriting : Bool) : OpenResult :=
  if forWriting then ⟨false, some .readOnlyArchive, false, false, 0, 0⟩
  else if file.length < 4 then ⟨false, none, true, false, 0, 4294967295⟩
  else if file.take 4 ≠ mvlSignature then
    ⟨false, some .unsupportedArchive, true, false, 0, 4294967295⟩
  else if file.length < 8 then ⟨false, none, true, false, 0, 4294967295⟩
  else ⟨true, none, true, true, 8, decodeLE32 ((file.drop 4).take 4)⟩

/-- Embedding of `GRP_isArchive` (grp.c:251-261): probe = outcome of
`grp_open` (the extra close of a surviving handle does not change it). -/
def GRP_isArchive (file : List Nat) (forWriting : Bool) : Bool :=
  (grp_open file forWriting).ok

/-- Embedding of `MVL_isArchive` (mvl.c:254-264). -/
def MVL_isArchive (file : List Nat) (forWriting : Bool) : Bool :=
  (mvl_open file forWriting).ok

/-- The directory-table reading loop of `grp_load_entries` (grp.c:301-322)
in on-disk order: at `pos` in the file, with the running `location`
cursor, read `n` records of 12 name bytes and a 4-byte LE size;
`startPos` is the current cursor and the cursor then advances by the
entry's size in 32-bit arithmetic.  A short read aborts the load. -/
def grp_parse_entries (file : List Nat) : Nat → Nat → Nat → Option (List ArcEntry)
  | _, _, 0 => some []
  | pos, location, n + 1 =>
    if pos + 12 ≤ file.length then
      if pos + 16 ≤ file.length then
        match grp_parse_entries file (pos + 16)
            ((location + decodeLE32 ((file.drop (pos + 12)).take 4)) % 4294967296) n with
        | some rest =>
            some (⟨grpNormalizeName ((file.drop pos).take 12), location,
                   decodeLE32 ((file.drop (pos + 12)).take 4)⟩ :: rest)
        | none => none
      else none
    else none

/-- The directory-table reading loop of `mvl_load_entries`
(mvl.c:311-328): 13 name bytes and a 4-byte LE size per record. -/
def mvl_parse_entries (file : List Nat) : Nat → Nat → Nat → Option (List ArcEntry)
  | _, _, 0 => some []
  | pos, location, n + 1 =>
    if pos + 13 ≤ file.length then
      if pos + 17 ≤ file.length then
        match mvl_parse_entries file (pos + 17)
            ((location + decodeLE32 ((file.drop (pos + 13)).take 4)) % 4294967296) n with
        | some rest =>
            some (⟨mvlNormalizeName ((file.drop pos).take 13), location,
                   decodeLE32 ((file.drop (pos + 13)).take 4)⟩ :: rest)
        | none => none
      else none
    else none

/-- Modelled from the spec: one insertion step of the generic sort
primitive `__PHYSFS_sort` (platform layer, not under src/), which sorts by
the supplied comparator; modelled as a stable comparison-based insertion. -/
def insEntry (cmp : List Nat → List Nat → Int) (e : ArcEntry) :
    List ArcEntry → List ArcEntry
  | [] => [e]
  | f :: rest =>
      if cmp e.name f.name ≤ 0 then e :: f :: rest else f :: insEntry cmp e rest

/-- Modelled from the spec: `__PHYSFS_sort` with a comparator callback
(spec section 6: a generic in-place sort primitive taking a comparator) —
modelled as stable insertion sort by the comparator. -/
def sortEntries (cmp : List Nat → List Nat → Int) : List ArcEntry → List ArcEntry
  | [] => []
  | e :: rest => insEntry cmp e (sortEntries cmp rest)

/-- Embedding of `grp_load_entries` (grp.c:282-329): open, read the table
in on-disk order with the location cursor initialized to
`16 + 16 * fileCount` (32-bit arithmetic), then sort by `grp_entry_cmp`,
which is `strcmp` on the entry names.  Allocation is modelled as
succeeding. -/
def grp_load_entries (file : List Nat) (forWriting : Bool) : Option GRPinfo :=
  let o := grp_open file forWriting
  if o.ok then
    match grp_parse_entries file o.pos ((16 + 16 * o.count) % 4294967296) o.count with
    | some es => some ⟨o.count, sortEntries strcmpBytes es⟩
    | none => none
  else none

/-- Embedding of `mvl_load_entries` (mvl.c:293-335): location cursor
initialized to `8 + 17 * fileCount`; the sort comparator `mvl_entry_cmp`
is `strcmp` on the entry names (mvl.c:267-276 — note: NOT the
case-insensitive comparison used by `mvl_find_entry`). -/
def mvl_load_entries (file : List Nat) (forWriting : Bool) : Option MVLinfo :=
  let o := mvl_open file forWriting
  if o.ok then
    match mvl_parse_entries file o.pos ((8 + 17 * o.count) % 4294967296) o.count with
    | some es => some ⟨o.count, sortEntries strcmpBytes es⟩
    | none => none
  else none

/-- The binary-search loop shared by `grp_find_entry` and
`mvl_find_entry`, parameterized by the comparator.  The C `while (lo <=
hi)` loop always terminates because the window shrinks; the explicit
`fuel` argument (instantiated with the initial window size, which bounds
the iteration count) makes the recursion structural.  The second
component counts executed loop iterations. -/
def bsearchGo (cmp : List Nat → List Nat → Int) (a : List ArcEntry)
    (name : List Nat) : Nat → Int → Int → Option ArcEntry × Nat
  | 0, _, _ => (none, 0)
  | fuel + 1, lo, hi =>
    if lo ≤ hi then
      if cmp name (a.getD (lo + (hi - lo) / 2).toNat default).name = 0 then
        (some (a.getD (lo + (hi - lo) / 2).toNat default), 1)
      else if cmp name (a.getD (lo + (hi - lo) / 2).toNat default).name > 0 then
        ((bsearchGo cmp a name fuel (lo + (hi - lo) / 2 + 1) hi).1,
         (bsearchGo cmp a name fuel (lo + (hi - lo) / 2 + 1) hi).2 + 1)
      else
        ((bsearchGo cmp a name fuel lo (lo + (hi - lo) / 2 - 1)).1,
         (bsearchGo cmp a name fuel lo (lo + (hi - lo) / 2 - 1)).2 + 1)
    else (none, 0)

/-- Embedding of `grp_find_entry` (grp.c:401-431) instrumented with the
number of search-loop iterations: the three plausibility rejections (in
source order: extension longer than 3 characters after the first dot,
name longer than 12, contains a path separator) report `NoSuchFile`
before any search; otherwise binary search with `strcmp` over
`lo = 0, hi = (sint32)(entryCount - 1)`. -/
def grp_find_entry_steps (info : GRPinfo) (name : List Nat) :
    Except Err ArcEntry × Nat :=
  if (name.dropWhile (fun b => b != 46)) ≠ [] ∧
      (name.dropWhile (fun b => b != 46)).length > 4 then (.error .noSuchFile, 0)
  else if name.length > 12 then (.error .noSuchFile, 0)
  else if name.contains 47 then (.error .noSuchFile, 0)
  else
    ((match (bsearchGo strcmpBytes info.entries name
        (searchInitHi info.entryCount + 1).toNat 0 (searchInitHi info.entryCount)).1 with
      | some e => .ok e
      | none => .error .noSuchFile),
     (bsearchGo strcmpBytes info.entries name
        (searchInitHi info.entryCount + 1).toNat 0 (searchInitHi info.entryCount)).2)

/-- Result component of `grp_find_entry`. -/
def grp_find_entry (info : GRPinfo) (name : List Nat) : Except Err ArcEntry :=
  (grp_find_entry_steps info name).1

/-- Embedding of `mvl_find_entry` (mvl.c:407-437): identical plausibility
rejections, but the binary search compares with
`__PHYSFS_platformStricmp`. -/
def mvl_find_entry_steps (info : MVLinfo) (name : List Nat) :
    Except Err ArcEntry × Nat :=
  if (name.dropWhile (fun b => b != 46)) ≠ [] ∧
      (name.dropWhile (fun b => b != 46)).length > 4 then (.error .noSuchFile, 0)
  else if name.length > 12 then (.error .noSuchFile, 0)
  else if name.contains 47 then (.error .noSuchFile, 0)
  else
    ((match (bsearchGo stricmpBytes info.entries name
        (searchInitHi info.entryCount + 1).toNat 0 (searchInitHi info.entryCount)).1 with
      | some e => .ok e
      | none => .error .noSuchFile),
     (bsearchGo stricmpBytes info.entries name
        (searchInitHi info.entryCount + 1).toNat 0 (searchInitHi info.entryCount)).2)

/-- Result component of `mvl_find_entry`. -/
def mvl_find_entry (info : MVLinfo) (name : List Nat) : Except Err ArcEntry :=
  (mvl_find_entry_steps info name).1

/-- Embedding of `GRP_exists` (grp.c:434-437). -/
def GRP_exists (info : GRPinfo) (name : List Nat) : Bool :=
  match grp_find_entry info name with
  | .ok _ => true
  | .error _ => false

/-- Embedding of `MVL_exists` (mvl.c:440-443). -/
def MVL_exists (info : MVLinfo) (name : List Nat) : Bool :=
  match mvl_find_entry info name with
  | .ok _ => true
  | .error _ => false

/-- Embedding of `GRP_openRead` (grp.c:469-504): look the name up; on a
hit, open an independent platform handle (outcome `popen`) and seek it to
the entry's `startPos` (outcome `pseek`); the returned handle state is
the found entry together with `curPos = 0`. -/
def GRP_openRead (info : GRPinfo) (name : List Nat)
    (popen : Bool) (pseek : Nat → Bool) : Option (ArcEntry × Nat) :=
  match grp_find_entry info name with
  | .error _ => none
  | .ok e => if popen && pseek e.startPos then some (e, 0) else none

/-- Embedding of `MVL_openRead` (mvl.c:475-510). -/
def MVL_openRead (info : MVLinfo) (name : List Nat)
    (popen : Bool) (pseek : Nat → Bool) : Option (ArcEntry × Nat) :=
  match mvl_find_entry info name with
  | .error _ => none
  | .ok e => if popen && pseek e.startPos then some (e, 0) else none

/-- Result of a read on an entry file handle: the platform return code
and the updated cursor. -/
structure ReadResult where
  rc : Int
  curPos : Nat
deriving DecidableEq

/-- Embedding of `GRP_read` (grp.c:140-157) over the handle state
`(entrySize, curPos)`: clamp the object count to the whole objects left
before the entry boundary, delegate to the platform read (outcome
`pread`, returning the number of objects transferred), and advance the
cursor by the bytes actually transferred (`PHYSFS_uint32` arithmetic). -/
def GRP_read (entrySize curPos objSize objCount : Nat)
    (pread : Nat → Nat → Int) : ReadResult :=
  let bytesLeft := (4294967296 + entrySize - curPos) % 4294967296
  let objsLeft := bytesLeft / objSize
  let objCount2 := if objsLeft < objCount then objsLeft else objCount
  let rc := pread objSize objCount2
  if 0 < rc then ⟨rc, (curPos + rc.toNat * objSize) % 4294967296⟩ else ⟨rc, curPos⟩

/-- Embedding of `MVL_read` (mvl.c:143-160); the code is identical to
`GRP_read`. -/
def MVL_read (entrySize curPos objSize objCount : Nat)
    (pread : Nat → Nat → Int) : ReadResult :=
  let bytesLeft := (4294967296 + entrySize - curPos) % 4294967296
  let objsLeft := bytesLeft / objSize
  let objCount2 := if objsLeft < objCount then objsLeft else objCount
  let rc := pread objSize objCount2
  if 0 < rc then ⟨rc, (curPos + rc.toNat * objSize) % 4294967296⟩ else ⟨rc, curPos⟩

/-- Result of a seek on an entry file handle. -/
structure SeekResult where
  ok : Bool
  err : Option Err
  curPos : Nat
deriving DecidableEq

/-- Embedding of `GRP_seek` (grp.c:181-194).  `offset` is a
`PHYSFS_uint64`, so the source's `BAIL_IF_MACRO(offset < 0, …)` guard can
never fire (an unsigned value is never negative) and negative offsets
cannot reach the function; the remaining checks are modelled exactly:
`offset >= entry->size` fails with `PastEndOfFile`, and the cursor is
updated only when the platform reposition (outcome `pseek` at absolute
position `startPos + offset`) succeeds. -/
def GRP_seek (entrySize startPos curPos offset : Nat)
    (pseek : Nat → Bool) : SeekResult :=
  if offset ≥ entrySize then ⟨false, some .pastEndOfFile, curPos⟩
  else if pseek (startPos + offset) then ⟨true, none, offset⟩
  else ⟨false, none, curPos⟩

/-- Embedding of `MVL_seek` (mvl.c:184-197); identical to `GRP_seek`. -/
def MVL_seek (entrySize startPos curPos offset : Nat)
    (pseek : Nat → Bool) : SeekResult :=
  if offset ≥ entrySize then ⟨false, some .pastEndOfFile, curPos⟩
  else if pseek (startPos + offset) then ⟨true, none, offset⟩
  else ⟨false, none, curPos⟩

/-- Embedding of `GRP_write` (grp.c:160-164): unconditionally returns
`-1` with `ERR_NOT_SUPPORTED`; the handle state (cursor) is untouched. -/
def GRP_write (curPos objSize objCount : Nat) : Int × Option Err × Nat :=
  (-1, some .notSupported, curPos)

/-- Embedding of `MVL_write` (mvl.c:163-167). -/
def MVL_write (curPos objSize objCount : Nat) : Int × Option Err × Nat :=
  (-1, some .notSupported, curPos)

/-- Embedding of `GRP_openWrite` (grp.c:507-510): unconditional
`ERR_NOT_SUPPORTED`, container untouched. -/
def GRP_openWrite (info : GRPinfo) (name : List Nat) : Except Err Unit × GRPinfo :=
  (.error .notSupported, info)

/-- Embedding of `GRP_openAppend` (grp.c:513-516). -/
def GRP_openAppend (info : GRPinfo) (name : List Nat) : Except Err Unit × GRPinfo :=
  (.error .notSupported, info)

/-- Embedding of `GRP_remove` (grp.c:519-522). -/
def GRP_remove (info : GRPinfo) (name : List Nat) : Except Err Unit × GRPinfo :=
  (.error .notSupported, info)

/-- Embedding of `GRP_mkdir` (grp.c:525-528). -/
def GRP_mkdir (info : GRPinfo) (name : List Nat) : Except Err Unit × GRPinfo :=
  (.error .notSupported, info)

/-- Embedding of `MVL_openWrite` (mvl.c:513-516). -/
def MVL_openWrite (info : MVLinfo) (name : List Nat) : Except Err Unit × MVLinfo :=
  (.error .notSupported, info)

/-- Embedding of `MVL_openAppend` (mvl.c:519-522). -/
def MVL_openAppend (info : MVLinfo) (name : List Nat) : Except Err Unit × MVLinfo :=
  (.error .notSupported, info)

/-- Embedding of `MVL_remove` (mvl.c:525-528). -/
def MVL_remove (info : MVLinfo) (name : List Nat) : Except Err Unit × MVLinfo :=
  (.error .notSupported, info)

/-- Embedding of `MVL_mkdir` (mvl.c:531-534). -/
def MVL_mkdir (info : MVLinfo) (name : List Nat) : Except Err Unit × MVLinfo :=
  (.error .notSupported, info)

/-! ### Properties of the comparators -/

theorem strcmpBytes_self (a : List Nat) : strcmpBytes a a = 0 := by
  induction a with
  | nil => rfl
  | cons x xs ih => simp [strcmpBytes, ih]

theorem strcmpBytes_flip (a : List Nat) : ∀ b, strcmpBytes a b = -strcmpBytes b a := by
  induction a with
  | nil => intro b; cases b <;> simp [strcmpBytes]
  | cons x xs ih =>
    intro b
    cases b with
    | nil => simp [strcmpBytes]
    | cons y ys =>
      simp only [strcmpBytes]
      split_ifs <;> first | omega | exact ih ys

theorem strcmpBytes_trans_le (a : List Nat) :
    ∀ b c, strcmpBytes a b ≤ 0 → strcmpBytes b c ≤ 0 → strcmpBytes a c ≤ 0 := by
  induction a with
  | nil => intro b c _ _; cases c <;> norm_num [strcmpBytes]
  | cons x xs ih =>
    intro b c h1 h2
    cases b with
    | nil => norm_num [strcmpBytes] at h1
    | cons y ys =>
      cases c with
      | nil => norm_num [strcmpBytes] at h2
      | cons z zs =>
        simp only [strcmpBytes] at h1 h2 ⊢
        split_ifs at h1 h2 ⊢ <;> first | omega | exact ih ys zs h1 h2

theorem strcmpBytes_eq_zero_iff (a : List Nat) :
    ∀ b, strcmpBytes a b = 0 ↔ a = b := by
  induction a with
  | nil => intro b; cases b <;> simp [strcmpBytes]
  | cons x xs ih =>
    intro b
    cases b with
    | nil => simp [strcmpBytes]
    | cons y ys =>
      simp only [strcmpBytes]
      split_ifs with h1 h2
      · constructor
        · intro h; exact absurd h (by norm_num)
        · intro h; injection h with h' _; omega
      · constructor
        · intro h; exact absurd h (by norm_num)
        · intro h; injection h with h' _; omega
      · have hxy : x = y := by omega
        subst hxy
        simp [ih ys]

theorem stricmpBytes_self (a : List Nat) : stricmpBytes a a = 0 :=
  strcmpBytes_self _

theorem stricmpBytes_flip (a b : List Nat) : stricmpBytes a b = -stricmpBytes b a :=
  strcmpBytes_flip _ _

theorem stricmpBytes_trans_le (a b c : List Nat) :
    stricmpBytes a b ≤ 0 → stricmpBytes b c ≤ 0 → stricmpBytes a c ≤ 0 :=
  strcmpBytes_trans_le _ _ _

/-! ### Properties of the comparator sort -/

theorem mem_insEntry (cmp : List Nat → List Nat → Int) (e x : ArcEntry) :
    ∀ l, x ∈ insEntry cmp e l ↔ x = e ∨ x ∈ l := by
  intro l
  induction l with
  | nil => simp [insEntry]
  | cons f rest ih =>
    simp only [insEntry]
    split_ifs with h
    · simp [List.mem_cons]
    · simp only [List.mem_cons, ih]
      tauto

theorem insEntry_perm (cmp : List Nat → List Nat → Int) (e : ArcEntry) :
    ∀ l, (insEntry cmp e l).Perm (e :: l) := by
  intro l
  induction l with
  | nil => simp [insEntry]
  | cons f rest ih =>
    simp only [insEntry]
    split_ifs with h
    · exact List.Perm.refl _
    · exact (ih.cons f).trans (List.Perm.swap e f rest)

theorem sortEntries_perm (cmp : List Nat → List Nat → Int) :
    ∀ l, (sortEntries cmp l).Perm l := by
  intro l
  induction l with
  | nil => simp [sortEntries]
  | cons e rest ih =>
    simp only [sortEntries]
    exact (insEntry_perm cmp e _).trans (ih.cons e)

theorem insEntry_pairwise (cmp : List Nat → List Nat → Int)
    (hflip : ∀ a b, cmp a b = -cmp b a)
    (htrans : ∀ a b c, cmp a b ≤ 0 → cmp b c ≤ 0 → cmp a c ≤ 0) (e : ArcEntry) :
    ∀ l, l.Pairwise (fun x y => cmp x.name y.name ≤ 0) →
      (insEntry cmp e l).Pairwise (fun x y => cmp x.name y.name ≤ 0) := by
  intro l
  induction l with
  | nil => intro _; simp [insEntry]
  | cons f rest ih =>
    intro hp
    rw [List.pairwise_cons] at hp
    obtain ⟨hf, hrest⟩ := hp
    simp only [insEntry]
    split_ifs with h
    · refine List.Pairwise.cons ?_ (List.Pairwise.cons hf hrest)
      intro x hx
      rcases List.mem_cons.mp hx with rfl | hx
      · exact h
      · exact htrans _ _ _ h (hf x hx)
    · refine List.Pairwise.cons ?_ (ih hrest)
      intro x hx
      rcases (mem_insEntry cmp e x rest).mp hx with rfl | hx
      · have hq := hflip f.name x.name
        have hq2 := hflip x.name f.name
        omega
      · exact hf x hx

theorem sortEntries_pairwise (cmp : List Nat → List Nat → Int)
    (hflip : ∀ a b, cmp a b = -cmp b a)
    (htrans : ∀ a b c, cmp a b ≤ 0 → cmp b c ≤ 0 → cmp a c ≤ 0) :
    ∀ l, (sortEntries cmp l).Pairwise (fun x y => cmp x.name y.name ≤ 0) := by
  intro l
  induction l with
  | nil => simp [sortEntries]
  | cons e rest ih =>
    simp only [sortEntries]
    exact insEntry_pairwise cmp hflip htrans e _ ih

/-! ### Properties of the binary search -/

theorem bsearchGo_succ (cmp : List Nat → List Nat → Int) (a : List ArcEntry)
    (name : List Nat) (fuel : Nat) (lo hi : Int) :
    bsearchGo cmp a name (fuel + 1) lo hi =
      if lo ≤ hi then
        if cmp name (a.getD (lo + (hi - lo) / 2).toNat default).name = 0 then
          (some (a.getD (lo + (hi - lo) / 2).toNat default), 1)
        else if cmp name (a.getD (lo + (hi - lo) / 2).toNat default).name > 0 then
          ((bsearchGo cmp a name fuel (lo + (hi - lo) / 2 + 1) hi).1,
           (bsearchGo cmp a name fuel (lo + (hi - lo) / 2 + 1) hi).2 + 1)
        else
          ((bsearchGo cmp a name fuel lo (lo + (hi - lo) / 2 - 1)).1,
           (bsearchGo cmp a name fuel lo (lo + (hi - lo) / 2 - 1)).2 + 1)
      else (none, 0) := rfl

theorem bsearchGo_some (cmp : List Nat → List Nat → Int) (a : List ArcEntry)
    (name : List Nat) :
    ∀ fuel (lo hi : Int), 0 ≤ lo → hi < (a.length : Int) →
      ∀ e, (bsearchGo cmp a name fuel lo hi).1 = some e →
        cmp name e.name = 0 ∧ e ∈ a := by
  intro fuel
  induction fuel with
  | zero => intro lo hi _ _ e h; exact absurd h (by simp [bsearchGo])
  | succ n ih =>
    intro lo hi h0 hlen e hres
    rw [bsearchGo_succ] at hres
    by_cases hlohi : lo ≤ hi
    · rw [if_pos hlohi] at hres
      have hd1 : 0 ≤ (hi - lo) / 2 := Int.ediv_nonneg (by omega) (by omega)
      have hd2 : (hi - lo) / 2 ≤ hi - lo := Int.ediv_le_self _ (by omega)
      set m : Int := lo + (hi - lo) / 2 with hm
      by_cases hrc : cmp name (a.getD m.toNat default).name = 0
      · rw [if_pos hrc] at hres
        obtain rfl : a.getD m.toNat default = e := by simpa using hres
        have hmlt : m.toNat < a.length := by omega
        refine ⟨hrc, ?_⟩
        rw [List.getD_eq_getElem _ _ hmlt]
        exact List.getElem_mem hmlt
      · rw [if_neg hrc] at hres
        by_cases hgt : cmp name (a.getD m.toNat default).name > 0
        · rw [if_pos hgt] at hres
          exact ih (m + 1) hi (by omega) hlen e (by simpa using hres)
        · rw [if_neg hgt] at hres
          exact ih lo (m - 1) h0 (by omega) e (by simpa using hres)
    · rw [if_neg hlohi] at hres
      exact absurd hres (by simp)

theorem bsearchGo_none (cmp : List Nat → List Nat → Int) (a : List ArcEntry)
    (name : List Nat)
    (hflip : ∀ x y, cmp x y = -cmp y x)
    (htrans : ∀ x y z, cmp x y ≤ 0 → cmp y z ≤ 0 → cmp x z ≤ 0)
    (hsort : ∀ i j : Nat, i ≤ j → j < a.length →
      cmp (a.getD i default).name (a.getD j default).name ≤ 0) :
    ∀ fuel (lo hi : Int), 0 ≤ lo → hi < (a.length : Int) →
      (hi + 1 - lo).toNat ≤ fuel →
      (bsearchGo cmp a name fuel lo hi).1 = none →
      ∀ i : Int, lo ≤ i → i ≤ hi → cmp name (a.getD i.toNat default).name ≠ 0 := by
  intro fuel
  induction fuel with
  | zero => intro lo hi _ _ hf _ i h1 h2; omega
  | succ n ih =>
    intro lo hi h0 hlen hf hres i h1 h2
    have hlohi : lo ≤ hi := le_trans h1 h2
    rw [bsearchGo_succ, if_pos hlohi] at hres
    have hd1 : 0 ≤ (hi - lo) / 2 := Int.ediv_nonneg (by omega) (by omega)
    have hd2 : (hi - lo) / 2 ≤ hi - lo := Int.ediv_le_self _ (by omega)
    set m : Int := lo + (hi - lo) / 2 with hm
    by_cases hrc : cmp name (a.getD m.toNat default).name = 0
    · rw [if_pos hrc] at hres
      exact absurd hres (by simp)
    · rw [if_neg hrc] at hres
      by_cases hgt : cmp name (a.getD m.toNat default).name > 0
      · rw [if_pos hgt] at hres
        rcases lt_trichotomy i m with hlt | heq | hgt2
        · intro hiz
          have hsij := hsort i.toNat m.toNat (by omega) (by omega)
          have hle := htrans name (a.getD i.toNat default).name
            (a.getD m.toNat default).name (by omega) hsij
          omega
        · rw [heq]; exact hrc
        · exact ih (m + 1) hi (by omega) hlen (by omega)
            (by simpa using hres) i (by omega) h2
      · rw [if_neg hgt] at hres
        rcases lt_trichotomy i m with hlt | heq | hgt2
        · exact ih lo (m - 1) h0 (by omega) (by omega)
            (by simpa using hres) i h1 (by omega)
        · rw [heq]; exact hrc
        · intro hiz
          have hsij := hsort m.toNat i.toNat (by omega) (by omega)
          have hflip1 := hflip (a.getD i.toNat default).name name
          have hle := htrans (a.getD m.toNat default).name
            (a.getD i.toNat default).name name hsij (by omega)
          have hflip2 := hflip (a.getD m.toNat default).name name
          omega

theorem searchInitHi_eq (n : Nat) (h : n < 2147483648) :
    searchInitHi n = (n : Int) - 1 := by
  simp only [searchInitHi, toSigned32]
  split_ifs <;> omega

/-! ### Correctness of the sorted lookup core -/

theorem findCore (cmp : List Nat → List Nat → Int) (entries : List ArcEntry)
    (name : List Nat)
    (hflip : ∀ x y, cmp x y = -cmp y x)
    (htrans : ∀ x y z, cmp x y ≤ 0 → cmp y z ≤ 0 → cmp x z ≤ 0)
    (hsorted : entries.Pairwise (fun x y => cmp x.name y.name ≤ 0))
    (hlen : entries.length < 2147483648) :
    ((∃ e ∈ entries, cmp name e.name = 0) →
      ∃ e, (bsearchGo cmp entries name (searchInitHi entries.length + 1).toNat 0
              (searchInitHi entries.length)).1 = some e ∧
           cmp name e.name = 0 ∧ e ∈ entries) ∧
    ((∀ e ∈ entries, cmp name e.name ≠ 0) →
      (bsearchGo cmp entries name (searchInitHi entries.length + 1).toNat 0
          (searchInitHi entries.length)).1 = none) := by
  have hhi : searchInitHi entries.length = (entries.length : Int) - 1 :=
    searchInitHi_eq _ hlen
  have hself : ∀ x, cmp x x = 0 := by
    intro x
    have := hflip x x
    omega
  have hsort : ∀ i j : Nat, i ≤ j → j < entries.length →
      cmp (entries.getD i default).name (entries.getD j default).name ≤ 0 := by
    intro i j hij hj
    rcases Nat.eq_or_lt_of_le hij with rfl | hlt
    · exact le_of_eq (hself _)
    · have hp := List.pairwise_iff_getElem.mp hsorted i j (by omega) hj hlt
      rw [List.getD_eq_getElem _ _ (by omega : i < entries.length),
          List.getD_eq_getElem _ _ hj]
      exact hp
  constructor
  · rintro ⟨e, he, hce⟩
    rcases hr : (bsearchGo cmp entries name (searchInitHi entries.length + 1).toNat 0
        (searchInitHi entries.length)).1 with _ | f
    · exfalso
      obtain ⟨idx, hidx, hei⟩ := List.mem_iff_getElem.mp he
      have hnone := bsearchGo_none cmp entries name hflip htrans hsort
        (searchInitHi entries.length + 1).toNat 0 (searchInitHi entries.length)
        (by omega) (by omega) (by omega) hr (idx : Int) (by omega) (by omega)
      apply hnone
      have : ((idx : Int)).toNat = idx := by omega
      rw [this, List.getD_eq_getElem _ _ hidx, hei]
      exact hce
    · obtain ⟨hc, hm⟩ := bsearchGo_some cmp entries name
        (searchInitHi entries.length + 1).toNat 0 (searchInitHi entries.length)
        (by omega) (by omega) f hr
      exact ⟨f, rfl, hc, hm⟩
  · intro hall
    rcases hr : (bsearchGo cmp entries name (searchInitHi entries.length + 1).toNat 0
        (searchInitHi entries.length)).1 with _ | f
    · rfl
    · exfalso
      obtain ⟨hc, hm⟩ := bsearchGo_some cmp entries name
        (searchInitHi entries.length + 1).toNat 0 (searchInitHi entries.length)
        (by omega) (by omega) f hr
      exact hall f hm hc

/-! ### Properties of the directory-table parse loop -/

theorem grp_parse_length (file : List Nat) :
    ∀ n pos loc es, grp_parse_entries file pos loc n = some es → es.length = n := by
  intro n
  induction n with
  | zero =>
    intro pos loc es h
    simp only [grp_parse_entries] at h
    obtain rfl := Option.some.inj h
    rfl
  | succ k ih =>
    intro pos loc es h
    simp only [grp_parse_entries] at h
    split_ifs at h
    rcases hrec : grp_parse_entries file (pos + 16)
        ((loc + decodeLE32 ((file.drop (pos + 12)).take 4)) % 4294967296) k with _ | rest
    · rw [hrec] at h; exact absurd h (by simp)
    · rw [hrec] at h
      obtain rfl := Option.some.inj h
      simp [ih _ _ _ hrec]

theorem mvl_parse_length (file : List Nat) :
    ∀ n pos loc es, mvl_parse_entries file pos loc n = some es → es.length = n := by
  intro n
  induction n with
  | zero =>
    intro pos loc es h
    simp only [mvl_parse_entries] at h
    obtain rfl := Option.some.inj h
    rfl
  | succ k ih =>
    intro pos loc es h
    simp only [mvl_parse_entries] at h
    split_ifs at h
    rcases hrec : mvl_parse_entries file (pos + 17)
        ((loc + decodeLE32 ((file.drop (pos + 13)).take 4)) % 4294967296) k with _ | rest
    · rw [hrec] at h; exact absurd h (by simp)
    · rw [hrec] at h
      obtain rfl := Option.some.inj h
      simp [ih _ _ _ hrec]

theorem grp_parse_head (file : List Nat) :
    ∀ n pos loc e rest, grp_parse_entries file pos loc n = some (e :: rest) →
      e.startPos = loc := by
  intro n
  cases n with
  | zero =>
    intro pos loc e rest h
    simp only [grp_parse_entries] at h
    exact absurd (Option.some.inj h) (by simp)
  | succ k =>
    intro pos loc e rest h
    simp only [grp_parse_entries] at h
    split_ifs at h
    rcases hrec : grp_parse_entries file (pos + 16)
        ((loc + decodeLE32 ((file.drop (pos + 12)).take 4)) % 4294967296) k with _ | r2
    · rw [hrec] at h; exact absurd h (by simp)
    · rw [hrec] at h
      have h2 := Option.some.inj h
      injection h2 with h3 _
      rw [← h3]

theorem mvl_parse_head (file : List Nat) :
    ∀ n pos loc e rest, mvl_parse_entries file pos loc n = some (e :: rest) →
      e.startPos = loc := by
  intro n
  cases n with
  | zero =>
    intro pos loc e rest h
    simp only [mvl_parse_entries] at h
    exact absurd (Option.some.inj h) (by simp)
  | succ k =>
    intro pos loc e rest h
    simp only [mvl_parse_entries] at h
    split_ifs at h
    rcases hrec : mvl_parse_entries file (pos + 17)
        ((loc + decodeLE32 ((file.drop (pos + 13)).take 4)) % 4294967296) k with _ | r2
    · rw [hrec] at h; exact absurd h (by simp)
    · rw [hrec] at h
      have h2 := Option.some.inj h
      injection h2 with h3 _
      rw [← h3]

theorem grp_parse_chain (file : List Nat) :
    ∀ n pos loc es, grp_parse_entries file pos loc n = some es →
      ∀ k, k + 1 < es.length →
        (es.getD (k + 1) default).startPos =
          ((es.getD k default).startPos + (es.getD k default).size) % 4294967296 := by
  intro n
  induction n with
  | zero =>
    intro pos loc es h k hk
    simp only [grp_parse_entries] at h
    obtain rfl := Option.some.inj h
    simp at hk
  | succ m ih =>
    intro pos loc es h k hk
    simp only [grp_parse_entries] at h
    split_ifs at h
    rcases hrec : grp_parse_entries file (pos + 16)
        ((loc + decodeLE32 ((file.drop (pos + 12)).take 4)) % 4294967296) m with _ | rest
    · rw [hrec] at h; exact absurd h (by simp)
    · rw [hrec] at h
      obtain rfl := Option.some.inj h
      cases k with
      | zero =>
        cases rest with
        | nil => simp at hk
        | cons f r2 =>
          have hf := grp_parse_head file m _ _ _ _ hrec
          simp only [List.getD_cons_succ, List.getD_cons_zero]
          rw [hf]
      | succ k2 =>
        have := ih _ _ _ hrec k2 (by simpa using hk)
        simpa using this

theorem mvl_parse_chain (file : List Nat) :
    ∀ n pos loc es, mvl_parse_entries file pos loc n = some es →
      ∀ k, k + 1 < es.length →
        (es.getD (k + 1) default).startPos =
          ((es.getD k default).startPos + (es.getD k default).size) % 4294967296 := by
  intro n
  induction n with
  | zero =>
    intro pos loc es h k hk
    simp only [mvl_parse_entries] at h
    obtain rfl := Option.some.inj h
    simp at hk
  | succ m ih =>
    intro pos loc es h k hk
    simp only [mvl_parse_entries] at h
    split_ifs at h
    rcases hrec : mvl_parse_entries file (pos + 17)
        ((loc + decodeLE32 ((file.drop (pos + 13)).take 4)) % 4294967296) m with _ | rest
    · rw [hrec] at h; exact absurd h (by simp)
    · rw [hrec] at h
      obtain rfl := Option.some.inj h
      cases k with
      | zero =>
        cases rest with
        | nil => simp at hk
        | cons f r2 =>
          have hf := mvl_parse_head file m _ _ _ _ hrec
          simp only [List.getD_cons_succ, List.getD_cons_zero]
          rw [hf]
      | succ k2 =>
        have := ih _ _ _ hrec k2 (by simpa using hk)
        simpa using this

/-! ### Inversion of a successful archive load -/

theorem grp_open_of_ok (file : List Nat) (fw : Bool)
    (h : (grp_open file fw).ok = true) :
    grp_open file fw =
      ⟨true, none, true, true, 16, decodeLE32 ((file.drop 12).take 4)⟩ := by
  unfold grp_open at h ⊢
  split_ifs at h ⊢ <;> first | rfl | simp_all

theorem mvl_open_of_ok (file : List Nat) (fw : Bool)
    (h : (mvl_open file fw).ok = true) :
    mvl_open file fw =
      ⟨true, none, true, true, 8, decodeLE32 ((file.drop 4).take 4)⟩ := by
  unfold mvl_open at h ⊢
  split_ifs at h ⊢ <;> first | rfl | simp_all

theorem grp_load_inv (file : List Nat) (fw : Bool) (info : GRPinfo)
    (h : grp_load_entries file fw = some info) :
    ∃ es, grp_parse_entries file 16
        ((16 + 16 * info.entryCount) % 4294967296) info.entryCount = some es ∧
      info.entries = sortEntries strcmpBytes es ∧
      es.length = info.entryCount := by
  unfold grp_load_entries at h
  by_cases hok : (grp_open file fw).ok
  · rw [if_pos hok] at h
    have hopen := grp_open_of_ok file fw hok
    rcases hp : grp_parse_entries file (grp_open file fw).pos
        ((16 + 16 * (grp_open file fw).count) % 4294967296)
        (grp_open file fw).count with _ | es
    · rw [hp] at h; exact absurd h (by simp)
    · rw [hp] at h
      have hinfo := Option.some.inj h
      have hcnt : info.entryCount = (grp_open file fw).count := by
        rw [← hinfo]
      have hpos : (grp_open file fw).pos = 16 := by rw [hopen]
      rw [hpos] at hp
      refine ⟨es, ?_, ?_, ?_⟩
      · rw [hcnt]; exact hp
      · rw [← hinfo]
      · rw [hcnt]; exact grp_parse_length file _ _ _ _ hp
  · rw [if_neg hok] at h; exact absurd h (by simp)

theorem mvl_load_inv (file : List Nat) (fw : Bool) (info : MVLinfo)
    (h : mvl_load_entries file fw = some info) :
    ∃ es, mvl_parse_entries file 8
        ((8 + 17 * info.entryCount) % 4294967296) info.entryCount = some es ∧
      info.entries = sortEntries strcmpBytes es ∧
      es.length = info.entryCount := by
  unfold mvl_load_entries at h
  by_cases hok : (mvl_open file fw).ok
  · rw [if_pos hok] at h
    have hopen := mvl_open_of_ok file fw hok
    rcases hp : mvl_parse_entries file (mvl_open file fw).pos
        ((8 + 17 * (mvl_open file fw).count) % 4294967296)
        (mvl_open file fw).count with _ | es
    · rw [hp] at h; exact absurd h (by simp)
    · rw [hp] at h
      have hinfo := Option.some.inj h
      have hcnt : info.entryCount = (mvl_open file fw).count := by
        rw [← hinfo]
      have hpos : (mvl_open file fw).pos = 8 := by rw [hopen]
      rw [hpos] at hp
      refine ⟨es, ?_, ?_, ?_⟩
      · rw [hcnt]; exact hp
      · rw [← hinfo]
      · rw [hcnt]; exact mvl_parse_length file _ _ _ _ hp
  · rw [if_neg hok] at h; exact absurd h (by simp)

theorem grp_load_sorted (file : List Nat) (fw : Bool) (info : GRPinfo)
    (h : grp_load_entries file fw = some info) :
    info.entries.Pairwise (fun x y => strcmpBytes x.name y.name ≤ 0) := by
  obtain ⟨es, _, hes, _⟩ := grp_load_inv file fw info h
  rw [hes]
  exact sortEntries_pairwise strcmpBytes strcmpBytes_flip
    (fun a b c => strcmpBytes_trans_le a b c) es

theorem mvl_load_sorted (file : List Nat) (fw : Bool) (info : MVLinfo)
    (h : mvl_load_entries file fw = some info) :
    info.entries.Pairwise (fun x y => strcmpBytes x.name y.name ≤ 0) := by
  obtain ⟨es, _, hes, _⟩ := mvl_load_inv file fw info h
  rw [hes]
  exact sortEntries_pairwise strcmpBytes strcmpBytes_flip
    (fun a b c => strcmpBytes_trans_le a b c) es

theorem grp_load_count (file : List Nat) (fw : Bool) (info : GRPinfo)
    (h : grp_load_entries file fw = some info) :
    info.entryCount = info.entries.length := by
  obtain ⟨es, _, hes, hlen⟩ := grp_load_inv file fw info h
  rw [hes, (sortEntries_perm strcmpBytes es).length_eq, hlen]

theorem mvl_load_count (file : List Nat) (fw : Bool) (info : MVLinfo)
    (h : mvl_load_entries file fw = some info) :
    info.entryCount = info.entries.length := by
  obtain ⟨es, _, hes, hlen⟩ := mvl_load_inv file fw info h
  rw [hes, (sortEntries_perm strcmpBytes es).length_eq, hlen]

/-! ### Lookup correctness at the driver level -/

theorem grp_find_some (info : GRPinfo) (name : List Nat)
    (h1 : ¬((name.dropWhile (fun b => b != 46)) ≠ [] ∧
        (name.dropWhile (fun b => b != 46)).length > 4))
    (h2 : ¬(name.length > 12)) (h3 : ¬(name.contains 47 = true)) (e : ArcEntry)
    (hb : (bsearchGo strcmpBytes info.entries name
        (searchInitHi info.entryCount + 1).toNat 0 (searchInitHi info.entryCount)).1 =
      some e) :
    grp_find_entry info name = .ok e ∧
    grp_find_entry_steps info name =
      (.ok e, (bsearchGo strcmpBytes info.entries name
        (searchInitHi info.entryCount + 1).toNat 0 (searchInitHi info.entryCount)).2) := by
  unfold grp_find_entry grp_find_entry_steps
  rw [if_neg h1, if_neg h2, if_neg h3, hb]
  exact ⟨rfl, rfl⟩

theorem grp_find_none (info : GRPinfo) (name : List Nat)
    (h1 : ¬((name.dropWhile (fun b => b != 46)) ≠ [] ∧
        (name.dropWhile (fun b => b != 46)).length > 4))
    (h2 : ¬(name.length > 12)) (h3 : ¬(name.contains 47 = true))
    (hb : (bsearchGo strcmpBytes info.entries name
        (searchInitHi info.entryCount + 1).toNat 0 (searchInitHi info.entryCount)).1 =
      none) :
    grp_find_entry info name = .error .noSuchFile ∧
    grp_find_entry_steps info name =
      (.error .noSuchFile, (bsearchGo strcmpBytes info.entries name
        (searchInitHi info.entryCount + 1).toNat 0 (searchInitHi info.entryCount)).2) := by
  unfold grp_find_entry grp_find_entry_steps
  rw [if_neg h1, if_neg h2, if_neg h3, hb]
  exact ⟨rfl, rfl⟩

theorem mvl_find_some (info : MVLinfo) (name : List Nat)
    (h1 : ¬((name.dropWhile (fun b => b != 46)) ≠ [] ∧
        (name.dropWhile (fun b => b != 46)).length > 4))
    (h2 : ¬(name.length > 12)) (h3 : ¬(name.contains 47 = true)) (e : ArcEntry)
    (hb : (bsearchGo stricmpBytes info.entries name
        (searchInitHi info.entryCount + 1).toNat 0 (searchInitHi info.entryCount)).1 =
      some e) :
    mvl_find_entry info name = .ok e ∧
    mvl_find_entry_steps info name =
      (.ok e, (bsearchGo stricmpBytes info.entries name
        (searchInitHi info.entryCount + 1).toNat 0 (searchInitHi info.entryCount)).2) := by
  unfold mvl_find_entry mvl_find_entry_steps
  rw [if_neg h1, if_neg h2, if_neg h3, hb]
  exact ⟨rfl, rfl⟩

theorem mvl_find_none (info : MVLinfo) (name : List Nat)
    (h1 : ¬((name.dropWhile (fun b => b != 46)) ≠ [] ∧
        (name.dropWhile (fun b => b != 46)).length > 4))
    (h2 : ¬(name.length > 12)) (h3 : ¬(name.contains 47 = true))
    (hb : (bsearchGo stricmpBytes info.entries name
        (searchInitHi info.entryCount + 1).toNat 0 (searchInitHi info.entryCount)).1 =
      none) :
    mvl_find_entry info name = .error .noSuchFile ∧
    mvl_find_entry_steps info name =
      (.error .noSuchFile, (bsearchGo stricmpBytes info.entries name
        (searchInitHi info.entryCount + 1).toNat 0 (searchInitHi info.entryCount)).2) := by
  unfold mvl_find_entry mvl_find_entry_steps
  rw [if_neg h1, if_neg h2, if_neg h3, hb]
  exact ⟨rfl, rfl⟩

theorem grp_lookup_correct (info : GRPinfo) (name : List Nat)
    (hsorted : info.entries.Pairwise (fun x y => strcmpBytes x.name y.name ≤ 0))
    (hcount : info.entryCount = info.entries.length)
    (hlen : info.entries.length < 2147483648)
    (h1 : ¬((name.dropWhile (fun b => b != 46)) ≠ [] ∧
        (name.dropWhile (fun b => b != 46)).length > 4))
    (h2 : ¬(name.length > 12)) (h3 : ¬(name.contains 47 = true)) :
    ((∃ e ∈ info.entries, e.name = name) →
      ∃ e, grp_find_entry info name = .ok e ∧ e.name = name ∧ e ∈ info.entries) ∧
    ((∀ e ∈ info.entries, e.name ≠ name) →
      grp_find_entry info name = .error .noSuchFile) := by
  have hcore := findCore strcmpBytes info.entries name strcmpBytes_flip
    (fun a b c => strcmpBytes_trans_le a b c) hsorted hlen
  rw [← hcount] at hcore
  constructor
  · rintro ⟨e, he, hname⟩
    obtain ⟨f, hf, hcf, hmf⟩ := hcore.1
      ⟨e, he, by rw [hname]; exact strcmpBytes_self name⟩
    exact ⟨f, (grp_find_some info name h1 h2 h3 f hf).1,
      ((strcmpBytes_eq_zero_iff name f.name).mp hcf).symm, hmf⟩
  · intro hall
    have hnone := hcore.2 (by
      intro e he hc
      exact hall e he ((strcmpBytes_eq_zero_iff name e.name).mp hc).symm)
    exact (grp_find_none info name h1 h2 h3 hnone).1

theorem mvl_lookup_correct (info : MVLinfo) (name : List Nat)
    (hsorted : info.entries.Pairwise (fun x y => stricmpBytes x.name y.name ≤ 0))
    (hcount : info.entryCount = info.entries.length)
    (hlen : info.entries.length < 2147483648)
    (h1 : ¬((name.dropWhile (fun b => b != 46)) ≠ [] ∧
        (name.dropWhile (fun b => b != 46)).length > 4))
    (h2 : ¬(name.length > 12)) (h3 : ¬(name.contains 47 = true)) :
    ((∃ e ∈ info.entries, stricmpBytes name e.name = 0) →
      ∃ e, mvl_find_entry info name = .ok e ∧ stricmpBytes name e.name = 0 ∧
        e ∈ info.entries) ∧
    ((∀ e ∈ info.entries, stricmpBytes name e.name ≠ 0) →
      mvl_find_entry info name = .error .noSuchFile) := by
  have hcore := findCore stricmpBytes info.entries name stricmpBytes_flip
    (fun a b c => stricmpBytes_trans_le a b c) hsorted hlen
  rw [← hcount] at hcore
  constructor
  · rintro ⟨e, he, hname⟩
    obtain ⟨f, hf, hcf, hmf⟩ := hcore.1 ⟨e, he, hname⟩
    exact ⟨f, (mvl_find_some info name h1 h2 h3 f hf).1, hcf, hmf⟩
  · intro hall
    exact (mvl_find_none info name h1 h2 h3 (hcore.2 hall)).1
/-! ### Evaluation of reads on an entry file handle -/

theorem mvl_read_eq_grp_read : MVL_read = GRP_read := rfl

theorem grp_read_eval (s c oS oC : Nat) (pread : Nat → Nat → Int)
    (hc : c ≤ s) (hs : s < 4294967296)
    (hp : ∀ m, pread oS m = (m : Int)) :
    GRP_read s c oS oC pread =
      ⟨((min ((s - c) / oS) oC : Nat) : Int), c + min ((s - c) / oS) oC * oS⟩ := by
  simp only [GRP_read]
  have hb : (4294967296 + s - c) % 4294967296 = s - c := by omega
  rw [hb]
  have hmin : (if (s - c) / oS < oC then (s - c) / oS else oC) =
      min ((s - c) / oS) oC := by
    split_ifs with h <;> omega
  rw [hmin, hp]
  have hd : (s - c) / oS * oS ≤ s - c := Nat.div_mul_le_self _ _
  have hmm : min ((s - c) / oS) oC * oS ≤ (s - c) / oS * oS :=
    Nat.mul_le_mul_right _ (min_le_left _ _)
  by_cases h : 0 < min ((s - c) / oS) oC
  · rw [if_pos (by exact_mod_cast h)]
    simp only [ReadResult.mk.injEq, Int.toNat_natCast]
    exact ⟨trivial, by omega⟩
  · rw [if_neg (by exact_mod_cast h)]
    have h0 : min ((s - c) / oS) oC = 0 := by omega
    simp only [ReadResult.mk.injEq]
    exact ⟨trivial, by rw [h0]; simp⟩

/-- C4: for every open entry file handle, a byte-granular read (objSize 1)
clamps to the entry boundary without error: the transferred amount is
`min(requested, entry.size - cursor)`; in particular requesting
`entry.size + K` single-byte objects from cursor 0 succeeds and returns
exactly `entry.size` bytes, and the cursor advances by exactly the bytes
transferred.  The platform read is assumed to deliver every requested
object (`pread` returns its clamped object count). -/
theorem claim_C4_read_clamp (s c n K : Nat) (pread : Nat → Nat → Int)
    (hc : c ≤ s) (hs : s < 4294967296) (hp : ∀ m, pread 1 m = (m : Int)) :
    (GRP_read s c 1 n pread =
        ⟨((min (s - c) n : Nat) : Int), c + min (s - c) n⟩ ∧
     MVL_read s c 1 n pread =
        ⟨((min (s - c) n : Nat) : Int), c + min (s - c) n⟩) ∧
    (GRP_read s 0 1 (s + K) pread = ⟨(s : Int), s⟩ ∧
     MVL_read s 0 1 (s + K) pread = ⟨(s : Int), s⟩) := by
  have hg := grp_read_eval s c 1 n pread hc hs hp
  have hg2 := grp_read_eval s 0 1 (s + K) pread (Nat.zero_le s) hs hp
  simp only [Nat.div_one, mul_one] at hg hg2
  have hmin2 : min (s - 0) (s + K) = s := by omega
  rw [hmin2] at hg2
  simp only [Nat.zero_add] at hg2
  refine ⟨⟨hg, ?_⟩, hg2, ?_⟩
  · rw [mvl_read_eq_grp_read]; exact hg
  · rw [mvl_read_eq_grp_read]; exact hg2

/-- Witness for C4 at a concrete handle: entry size 5, cursor 0,
requesting 8 = 5 + 3 single-byte objects transfers exactly 5 bytes. -/
theorem claim_C4_witness :
    GRP_read 5 0 1 8 (fun _ m => (m : Int)) = ⟨5, 5⟩ ∧
    MVL_read 5 0 1 8 (fun _ m => (m : Int)) = ⟨5, 5⟩ :=
  ⟨(claim_C4_read_clamp 5 0 8 3 (fun _ m => (m : Int)) (by decide) (by decide)
      (fun m => rfl)).2.1,
   (claim_C4_read_clamp 5 0 8 3 (fun _ m => (m : Int)) (by decide) (by decide)
      (fun m => rfl)).2.2⟩

/-- C9: read clamping is object-granular: at most
`(entry.size - cursor) / objSize` whole objects are transferred, the
cursor never passes the entry boundary (no partial trailing object), and
when `objSize` exceeds the remaining bytes zero objects are requested and
the cursor does not move. -/
theorem claim_C9_object_granularity (s c oS oC : Nat) (pread : Nat → Nat → Int)
    (hoS : 0 < oS) (hc : c ≤ s) (hs : s < 4294967296)
    (hp : ∀ m, pread oS m = (m : Int)) :
    (GRP_read s c oS oC pread =
        ⟨((min ((s - c) / oS) oC : Nat) : Int), c + min ((s - c) / oS) oC * oS⟩ ∧
     MVL_read s c oS oC pread =
        ⟨((min ((s - c) / oS) oC : Nat) : Int), c + min ((s - c) / oS) oC * oS⟩) ∧
    c + min ((s - c) / oS) oC * oS ≤ s ∧
    (s - c < oS →
      GRP_read s c oS oC pread = ⟨0, c⟩ ∧ MVL_read s c oS oC pread = ⟨0, c⟩) := by
  have hg := grp_read_eval s c oS oC pread hc hs hp
  have hd : (s - c) / oS * oS ≤ s - c := Nat.div_mul_le_self _ _
  have hmm : min ((s - c) / oS) oC * oS ≤ (s - c) / oS * oS :=
    Nat.mul_le_mul_right _ (min_le_left _ _)
  refine ⟨⟨hg, by rw [mvl_read_eq_grp_read]; exact hg⟩, by omega, ?_⟩
  intro hlt
  rw [Nat.div_eq_of_lt hlt] at hg
  simp only [Nat.zero_min, Nat.zero_mul, Nat.add_zero, Nat.cast_zero] at hg
  exact ⟨hg, by rw [mvl_read_eq_grp_read]; exact hg⟩

/-- Witness for C9: entry size 5, cursor 0: with 4-byte objects only one
whole object is transferred (no partial trailing object); with 7-byte
objects zero objects are requested and the cursor stays at 0. -/
theorem claim_C9_witness :
    GRP_read 5 0 4 3 (fun _ m => (m : Int)) = ⟨1, 4⟩ ∧
    GRP_read 5 0 7 9 (fun _ m => (m : Int)) = ⟨0, 0⟩ ∧
    MVL_read 5 0 7 9 (fun _ m => (m : Int)) = ⟨0, 0⟩ :=
  ⟨(claim_C9_object_granularity 5 0 4 3 (fun _ m => (m : Int)) (by decide)
      (by decide) (by decide) (fun m => rfl)).1.1,
   ((claim_C9_object_granularity 5 0 7 9 (fun _ m => (m : Int)) (by decide)
      (by decide) (by decide) (fun m => rfl)).2.2 (by decide)).1,
   ((claim_C9_object_granularity 5 0 7 9 (fun _ m => (m : Int)) (by decide)
      (by decide) (by decide) (fun m => rfl)).2.2 (by decide)).2⟩

/-- C5: seek on an entry file handle fails with `PastEndOfFile` whenever
`offset ≥ entry.size` (so `seek(entry.size)` is rejected and on a
zero-size entry every seek fails), otherwise repositions the underlying
descriptor to `startPos + offset` and sets the cursor to `offset`; a
failed platform reposition leaves the cursor unchanged and reports
failure.  `offset` is a `PHYSFS_uint64`, so the source's
negative-offset `InvalidArgument` guard can never fire. -/
theorem claim_C5_seek_bounds (s sp c off : Nat) (pseek : Nat → Bool) :
    (off ≥ s →
      GRP_seek s sp c off pseek = ⟨false, some .pastEndOfFile, c⟩ ∧
      MVL_seek s sp c off pseek = ⟨false, some .pastEndOfFile, c⟩) ∧
    (s = 0 →
      GRP_seek s sp c off pseek = ⟨false, some .pastEndOfFile, c⟩ ∧
      MVL_seek s sp c off pseek = ⟨false, some .pastEndOfFile, c⟩) ∧
    (off < s → pseek (sp + off) = true →
      GRP_seek s sp c off pseek = ⟨true, none, off⟩ ∧
      MVL_seek s sp c off pseek = ⟨true, none, off⟩) ∧
    (off < s → pseek (sp + off) = false →
      GRP_seek s sp c off pseek = ⟨false, none, c⟩ ∧
      MVL_seek s sp c off pseek = ⟨false, none, c⟩) := by
  refine ⟨?_, ?_, ?_, ?_⟩
  · intro h
    unfold GRP_seek MVL_seek
    simp only [if_pos h]
    exact ⟨trivial, trivial⟩
  · intro h
    unfold GRP_seek MVL_seek
    simp only [if_pos (by omega : off ≥ s)]
    exact ⟨trivial, trivial⟩
  · intro h hps
    unfold GRP_seek MVL_seek
    simp only [if_neg (by omega : ¬(off ≥ s)), if_pos hps]
    exact ⟨trivial, trivial⟩
  · intro h hps
    unfold GRP_seek MVL_seek
    simp only [if_neg (by omega : ¬(off ≥ s)),
      if_neg (by simp [hps] : ¬(pseek (sp + off) = true))]
    exact ⟨trivial, trivial⟩

/-- Witness for C5: entry size 4, startPos 10, cursor 1: seeking to 4 (the
size itself) fails past-end leaving the cursor at 1; seeking to 2 with a
succeeding reposition sets the cursor to 2; with a failing reposition the
cursor stays 1; on a zero-size entry seek 0 fails. -/
theorem claim_C5_witness :
    GRP_seek 4 10 1 4 (fun _ => true) = ⟨false, some .pastEndOfFile, 1⟩ ∧
    GRP_seek 4 10 1 2 (fun _ => true) = ⟨true, none, 2⟩ ∧
    MVL_seek 4 10 1 2 (fun _ => false) = ⟨false, none, 1⟩ ∧
    GRP_seek 0 10 0 0 (fun _ => true) = ⟨false, some .pastEndOfFile, 0⟩ :=
  ⟨((claim_C5_seek_bounds 4 10 1 4 (fun _ => true)).1 (by decide)).1,
   ((claim_C5_seek_bounds 4 10 1 2 (fun _ => true)).2.2.1 (by decide) rfl).1,
   ((claim_C5_seek_bounds 4 10 1 2 (fun _ => false)).2.2.2 (by decide) rfl).2,
   ((claim_C5_seek_bounds 0 10 0 0 (fun _ => true)).2.1 rfl).1⟩

/-- C6: every write-family operation is rejected unconditionally with
`NotSupported` for both formats, leaving the container and handle state
untouched, and opening an archive for writing fails with
`ReadOnlyArchive` before the file is even opened (`everOpened = false`). -/
theorem claim_C6_write_rejected (ginfo : GRPinfo) (minfo : MVLinfo)
    (name : List Nat) (c oS oC : Nat) (gfile mfile : List Nat) :
    GRP_openWrite ginfo name = (.error .notSupported, ginfo) ∧
    GRP_openAppend ginfo name = (.error .notSupported, ginfo) ∧
    GRP_remove ginfo name = (.error .notSupported, ginfo) ∧
    GRP_mkdir ginfo name = (.error .notSupported, ginfo) ∧
    GRP_write c oS oC = (-1, some .notSupported, c) ∧
    grp_open gfile true = ⟨false, some .readOnlyArchive, false, false, 0, 0⟩ ∧
    MVL_openWrite minfo name = (.error .notSupported, minfo) ∧
    MVL_openAppend minfo name = (.error .notSupported, minfo) ∧
    MVL_remove minfo name = (.error .notSupported, minfo) ∧
    MVL_mkdir minfo name = (.error .notSupported, minfo) ∧
    MVL_write c oS oC = (-1, some .notSupported, c) ∧
    mvl_open mfile true = ⟨false, some .readOnlyArchive, false, false, 0, 0⟩ :=
  ⟨rfl, rfl, rfl, rfl, rfl, rfl, rfl, rfl, rfl, rfl, rfl, rfl⟩

/-- C7: a file whose leading bytes are not the format's signature fails
both probe and open with `UnsupportedArchive` and the raw handle closed
before returning; a short read of the signature or of the entry count
also fails with the handle closed; on success the handle is positioned
immediately after the entry-count field (byte 16 for GRP, byte 8 for
MVL), with the little-endian entry count decoded. -/
theorem claim_C7_signature_check (file : List Nat) :
    (12 ≤ file.length → file.take 12 ≠ grpSignature →
      grp_open file false = ⟨false, some .unsupportedArchive, true, false, 0, 4294967295⟩ ∧
      GRP_isArchive file false = false) ∧
    (file.length < 12 →
      grp_open file false = ⟨false, none, true, false, 0, 4294967295⟩ ∧
      GRP_isArchive file false = false) ∧
    (file.take 12 = grpSignature → file.length < 16 →
      grp_open file false = ⟨false, none, true, false, 0, 4294967295⟩) ∧
    (file.take 12 = grpSignature → 16 ≤ file.length →
      grp_open file false =
        ⟨true, none, true, true, 16, decodeLE32 ((file.drop 12).take 4)⟩) ∧
    (4 ≤ file.length → file.take 4 ≠ mvlSignature →
      mvl_open file false = ⟨false, some .unsupportedArchive, true, false, 0, 4294967295⟩ ∧
      MVL_isArchive file false = false) ∧
    (file.length < 4 →
      mvl_open file false = ⟨false, none, true, false, 0, 4294967295⟩ ∧
      MVL_isArchive file false = false) ∧
    (file.take 4 = mvlSignature → file.length < 8 →
      mvl_open file false = ⟨false, none, true, false, 0, 4294967295⟩) ∧
    (file.take 4 = mvlSignature → 8 ≤ file.length →
      mvl_open file false =
        ⟨true, none, true, true, 8, decodeLE32 ((file.drop 4).take 4)⟩) := by
  have hgsig : ∀ _ : file.take 12 = grpSignature, ¬(file.length < 12) := by
    intro h12
    have hlen12 : (file.take 12).length = 12 := by rw [h12]; rfl
    rw [List.length_take] at hlen12
    omega
  have hmsig : ∀ _ : file.take 4 = mvlSignature, ¬(file.length < 4) := by
    intro h4
    have hlen4 : (file.take 4).length = 4 := by rw [h4]; rfl
    rw [List.length_take] at hlen4
    omega
  refine ⟨?_, ?_, ?_, ?_, ?_, ?_, ?_, ?_⟩
  · intro hl hsig
    unfold GRP_isArchive grp_open
    rw [if_neg Bool.false_ne_true, if_neg (by omega : ¬(file.length < 12)),
      if_pos hsig]
    exact ⟨rfl, rfl⟩
  · intro hl
    unfold GRP_isArchive grp_open
    rw [if_neg Bool.false_ne_true, if_pos hl]
    exact ⟨rfl, rfl⟩
  · intro hsig hl
    unfold grp_open
    rw [if_neg Bool.false_ne_true, if_neg (hgsig hsig),
      if_neg (by rw [hsig]; exact fun hne => hne rfl), if_pos hl]
  · intro hsig hl
    unfold grp_open
    rw [if_neg Bool.false_ne_true, if_neg (hgsig hsig),
      if_neg (by rw [hsig]; exact fun hne => hne rfl),
      if_neg (by omega : ¬(file.length < 16))]
  · intro hl hsig
    unfold MVL_isArchive mvl_open
    rw [if_neg Bool.false_ne_true, if_neg (by omega : ¬(file.length < 4)),
      if_pos hsig]
    exact ⟨rfl, rfl⟩
  · intro hl
    unfold MVL_isArchive mvl_open
    rw [if_neg Bool.false_ne_true, if_pos hl]
    exact ⟨rfl, rfl⟩
  · intro hsig hl
    unfold mvl_open
    rw [if_neg Bool.false_ne_true, if_neg (hmsig hsig),
      if_neg (by rw [hsig]; exact fun hne => hne rfl), if_pos hl]
  · intro hsig hl
    unfold mvl_open
    rw [if_neg Bool.false_ne_true, if_neg (hmsig hsig),
      if_neg (by rw [hsig]; exact fun hne => hne rfl),
      if_neg (by omega : ¬(file.length < 8))]

/-- Witness for C7: a 12-zero-byte file is rejected by GRP probe and open
with `UnsupportedArchive`; a 3-byte file is a short signature read; a
truncated count after a valid signature fails with the handle closed; the
signature followed by a zero count opens successfully positioned at 16;
and the MVL signature followed by a count of 2 opens positioned at 8. -/
theorem claim_C7_witness :
    (grp_open [0, 0, 0, 0, 0, 0, 0, 0, 0, 0, 0, 0] false =
      ⟨false, some .unsupportedArchive, true, false, 0, 4294967295⟩ ∧
     GRP_isArchive [0, 0, 0, 0, 0, 0, 0, 0, 0, 0, 0, 0] false = false) ∧
    (grp_open [1, 2, 3] false = ⟨false, none, true, false, 0, 4294967295⟩ ∧
     GRP_isArchive [1, 2, 3] false = false) ∧
    grp_open (grpSignature ++ [0, 0]) false =
      ⟨false, none, true, false, 0, 4294967295⟩ ∧
    grp_open (grpSignature ++ [0, 0, 0, 0]) false =
      ⟨true, none, true, true, 16,
        decodeLE32 (((grpSignature ++ [0, 0, 0, 0]).drop 12).take 4)⟩ ∧
    (mvl_open [9, 9, 9, 9] false =
      ⟨false, some .unsupportedArchive, true, false, 0, 4294967295⟩ ∧
     MVL_isArchive [9, 9, 9, 9] false = false) ∧
    mvl_open (mvlSignature ++ [2, 0, 0, 0]) false =
      ⟨true, none, true, true, 8,
        decodeLE32 (((mvlSignature ++ [2, 0, 0, 0]).drop 4).take 4)⟩ :=
  ⟨(claim_C7_signature_check _).1 (by decide) (by decide),
   (claim_C7_signature_check _).2.1 (by decide),
   (claim_C7_signature_check _).2.2.1 (by decide) (by decide),
   (claim_C7_signature_check _).2.2.2.1 (by decide) (by decide),
   (claim_C7_signature_check _).2.2.2.2.1 (by decide) (by decide),
   (claim_C7_signature_check _).2.2.2.2.2.2.2 (by decide) (by decide)⟩

/-- C8: lookup rejects a name with `NoSuchFile` before touching the entry
array (zero search-loop iterations) when the name has an extension longer
than 3 characters after its first dot, is longer than 12 characters, or
contains a path separator; a name passing all three checks is resolved
purely by the binary search: a search hit yields that entry and a search
miss yields `NoSuchFile`, with the iteration count coming from the
search. -/
theorem claim_C8_name_prefilter (ginfo : GRPinfo) (minfo : MVLinfo)
    (name : List Nat) :
    (((name.dropWhile (fun b => b != 46)) ≠ [] ∧
        (name.dropWhile (fun b => b != 46)).length > 4) ∨
      name.length > 12 ∨ name.contains 47 = true →
      grp_find_entry_steps ginfo name = (.error .noSuchFile, 0) ∧
      mvl_find_entry_steps minfo name = (.error .noSuchFile, 0)) ∧
    (¬((name.dropWhile (fun b => b != 46)) ≠ [] ∧
        (name.dropWhile (fun b => b != 46)).length > 4) →
      ¬(name.length > 12) → ¬(name.contains 47 = true) →
      (∀ e, (bsearchGo strcmpBytes ginfo.entries name
          (searchInitHi ginfo.entryCount + 1).toNat 0
          (searchInitHi ginfo.entryCount)).1 = some e →
        grp_find_entry_steps ginfo name =
          (.ok e, (bsearchGo strcmpBytes ginfo.entries name
            (searchInitHi ginfo.entryCount + 1).toNat 0
            (searchInitHi ginfo.entryCount)).2)) ∧
      ((bsearchGo strcmpBytes ginfo.entries name
          (searchInitHi ginfo.entryCount + 1).toNat 0
          (searchInitHi ginfo.entryCount)).1 = none →
        grp_find_entry_steps ginfo name =
          (.error .noSuchFile, (bsearchGo strcmpBytes ginfo.entries name
            (searchInitHi ginfo.entryCount + 1).toNat 0
            (searchInitHi ginfo.entryCount)).2)) ∧
      (∀ e, (bsearchGo stricmpBytes minfo.entries name
          (searchInitHi minfo.entryCount + 1).toNat 0
          (searchInitHi minfo.entryCount)).1 = some e →
        mvl_find_entry_steps minfo name =
          (.ok e, (bsearchGo stricmpBytes minfo.entries name
            (searchInitHi minfo.entryCount + 1).toNat 0
            (searchInitHi minfo.entryCount)).2)) ∧
      ((bsearchGo stricmpBytes minfo.entries name
          (searchInitHi minfo.entryCount + 1).toNat 0
          (searchInitHi minfo.entryCount)).1 = none →
        mvl_find_entry_steps minfo name =
          (.error .noSuchFile, (bsearchGo stricmpBytes minfo.entries name
            (searchInitHi minfo.entryCount + 1).toNat 0
            (searchInitHi minfo.entryCount)).2))) := by
  constructor
  · intro h
    constructor
    · unfold grp_find_entry_steps
      split_ifs with ha hb hc
      · rfl
      · rfl
      · rfl
      · exact absurd h (by tauto)
    · unfold mvl_find_entry_steps
      split_ifs with ha hb hc
      · rfl
      · rfl
      · rfl
      · exact absurd h (by tauto)
  · intro h1 h2 h3
    exact ⟨fun e he => (grp_find_some ginfo name h1 h2 h3 e he).2,
      fun he => (grp_find_none ginfo name h1 h2 h3 he).2,
      fun e he => (mvl_find_some minfo name h1 h2 h3 e he).2,
      fun he => (mvl_find_none minfo name h1 h2 h3 he).2⟩

/-- Witness for C8: on a one-entry container, the name `A/B` (a path
separator), a 13-character name, and `A.BCDE` (4-character extension)
are all rejected with zero search iterations; the passing name `B` is
resolved by the binary search. -/
theorem claim_C8_witness :
    (grp_find_entry_steps ⟨1, [⟨[65], 32, 0⟩]⟩ [65, 47, 66] =
      (.error .noSuchFile, 0) ∧
     mvl_find_entry_steps ⟨1, [⟨[65], 25, 0⟩]⟩ [65, 47, 66] =
      (.error .noSuchFile, 0)) ∧
    (grp_find_entry_steps ⟨1, [⟨[65], 32, 0⟩]⟩
      [66, 66, 66, 66, 66, 66, 66, 66, 66, 66, 66, 66, 66] =
      (.error .noSuchFile, 0) ∧
     mvl_find_entry_steps ⟨1, [⟨[65], 25, 0⟩]⟩
      [66, 66, 66, 66, 66, 66, 66, 66, 66, 66, 66, 66, 66] =
      (.error .noSuchFile, 0)) ∧
    (grp_find_entry_steps ⟨1, [⟨[65], 32, 0⟩]⟩ [65, 46, 66, 67, 68, 69] =
      (.error .noSuchFile, 0) ∧
     mvl_find_entry_steps ⟨1, [⟨[65], 25, 0⟩]⟩ [65, 46, 66, 67, 68, 69] =
      (.error .noSuchFile, 0)) ∧
    grp_find_entry_steps ⟨1, [⟨[65], 32, 0⟩]⟩ [66] =
      (.error .noSuchFile, (bsearchGo strcmpBytes [⟨[65], 32, 0⟩] [66]
        (searchInitHi 1 + 1).toNat 0 (searchInitHi 1)).2) :=
  ⟨(claim_C8_name_prefilter ⟨1, [⟨[65], 32, 0⟩]⟩ ⟨1, [⟨[65], 25, 0⟩]⟩
      [65, 47, 66]).1 (Or.inr (Or.inr (by decide))),
   (claim_C8_name_prefilter ⟨1, [⟨[65], 32, 0⟩]⟩ ⟨1, [⟨[65], 25, 0⟩]⟩
      [66, 66, 66, 66, 66, 66, 66, 66, 66, 66, 66, 66, 66]).1
      (Or.inr (Or.inl (by decide))),
   (claim_C8_name_prefilter ⟨1, [⟨[65], 32, 0⟩]⟩ ⟨1, [⟨[65], 25, 0⟩]⟩
      [65, 46, 66, 67, 68, 69]).1 (Or.inl (by decide)),
   ((claim_C8_name_prefilter ⟨1, [⟨[65], 32, 0⟩]⟩ ⟨1, [⟨[65], 25, 0⟩]⟩
      [66]).2 (by decide) (by decide) (by decide)).2.1 (by decide)⟩

/-- C10: on a container loaded from a valid archive with entry count 0,
every lookup fails with `NoSuchFile` after zero search-loop iterations:
the initial search bounds are `lo = 0` and `hi = (sint32)(0 - 1) = -1`,
so the loop body never executes and the empty entry array is never
accessed. -/
theorem claim_C10_empty_archive (gfile mfile : List Nat) (ginfo : GRPinfo)
    (minfo : MVLinfo) (name : List Nat) :
    (grp_load_entries gfile false = some ginfo → ginfo.entryCount = 0 →
      grp_find_entry_steps ginfo name = (.error .noSuchFile, 0)) ∧
    (mvl_load_entries mfile false = some minfo → minfo.entryCount = 0 →
      mvl_find_entry_steps minfo name = (.error .noSuchFile, 0)) ∧
    searchInitHi 0 = -1 := by
  refine ⟨?_, ?_, by decide⟩
  · intro hload hc
    obtain ⟨es, hp, hes, hlen⟩ := grp_load_inv gfile false ginfo hload
    have hnil : es = [] := List.length_eq_zero.mp (by rw [hlen, hc])
    have hinfo : ginfo = ⟨0, []⟩ := by
      cases ginfo with
      | mk cnt ents =>
        simp only [GRPinfo.mk.injEq]
        exact ⟨hc, by rw [hnil] at hes; simpa [sortEntries] using hes⟩
    rw [hinfo]
    unfold grp_find_entry_steps
    split_ifs <;> rfl
  · intro hload hc
    obtain ⟨es, hp, hes, hlen⟩ := mvl_load_inv mfile false minfo hload
    have hnil : es = [] := List.length_eq_zero.mp (by rw [hlen, hc])
    have hinfo : minfo = ⟨0, []⟩ := by
      cases minfo with
      | mk cnt ents =>
        simp only [MVLinfo.mk.injEq]
        exact ⟨hc, by rw [hnil] at hes; simpa [sortEntries] using hes⟩
    rw [hinfo]
    unfold mvl_find_entry_steps
    split_ifs <;> rfl

/-- Witness for C10: empty GRP and MVL archives (signature plus a zero
count) load successfully and every lookup, here of the name `X`, fails
with `NoSuchFile` without touching the entry array. -/
theorem claim_C10_witness :
    grp_find_entry_steps ⟨0, []⟩ [88] = (.error .noSuchFile, 0) ∧
    mvl_find_entry_steps ⟨0, []⟩ [88] = (.error .noSuchFile, 0) ∧
    searchInitHi 0 = -1 :=
  ⟨(claim_C10_empty_archive (grpSignature ++ [0, 0, 0, 0])
      (mvlSignature ++ [0, 0, 0, 0]) ⟨0, []⟩ ⟨0, []⟩ [88]).1
      (by decide) (by decide),
   (claim_C10_empty_archive (grpSignature ++ [0, 0, 0, 0])
      (mvlSignature ++ [0, 0, 0, 0]) ⟨0, []⟩ ⟨0, []⟩ [88]).2.1
      (by decide) (by decide),
   (claim_C10_empty_archive (grpSignature ++ [0, 0, 0, 0])
      (mvlSignature ++ [0, 0, 0, 0]) ⟨0, []⟩ ⟨0, []⟩ [88]).2.2⟩

/-- C2: the claim that a loaded MVL container is sorted under the
format's case-insensitive comparison fails on the code: `mvl_entry_cmp`
sorts with case-sensitive `strcmp` while `mvl_find_entry` searches with
`__PHYSFS_platformStricmp`.  A 2-entry MVL archive with names `a` and `B`
loads successfully into the entry order `[B, a]`, and for that pair
(indices 0 < 1) the case-insensitive comparison is positive, violating
the sortedness invariant the binary search relies on. -/
theorem claim_C2_mvl_sort_comparator_bug :
    mvl_load_entries (mvlSignature ++ [2, 0, 0, 0] ++
        ([97] ++ List.replicate 12 0 ++ [0, 0, 0, 0]) ++
        ([66] ++ List.replicate 12 0 ++ [0, 0, 0, 0])) false =
      some ⟨2, [⟨[66], 42, 0⟩, ⟨[97], 42, 0⟩]⟩ ∧
    stricmpBytes [66] [97] > 0 ∧
    ¬(([⟨[66], 42, 0⟩, ⟨[97], 42, 0⟩] : List ArcEntry).Pairwise
        (fun x y => stricmpBytes x.name y.name ≤ 0)) ∧
    (([⟨[66], 42, 0⟩, ⟨[97], 42, 0⟩] : List ArcEntry).Pairwise
        (fun x y => strcmpBytes x.name y.name ≤ 0)) := by
  refine ⟨by decide, by decide, ?_, ?_⟩
  · intro hpair
    have := (List.pairwise_cons.mp hpair).1 ⟨[97], 42, 0⟩ (by decide)
    revert this
    decide
  · decide

/-- C3 (amended): for every successfully loaded archive, taking the
entries in on-disk order, entry 0's `startPos` equals
`(headerSize + entryCount × entryRecordSize) mod 2^32` (16 + 16·count for
GRP, 8 + 17·count for MVL) and every consecutive pair satisfies
`entry[k+1].startPos = (entry[k].startPos + entry[k].size) mod 2^32`;
the loaded (sorted) entry sequence is a permutation of that on-disk
sequence.  The reduction modulo 2^32 is the code's `PHYSFS_uint32`
cursor arithmetic; without it — and without assuming nonzero sizes — the
claimed strict increase fails (see the counterexample). -/
theorem claim_C3_startpos_recurrence :
    (∀ file info, grp_load_entries file false = some info →
      ∃ es, grp_parse_entries file 16 ((16 + 16 * info.entryCount) % 4294967296)
          info.entryCount = some es ∧
        info.entries.Perm es ∧
        (0 < es.length → (es.getD 0 default).startPos =
          (16 + 16 * info.entryCount) % 4294967296) ∧
        (∀ k, k + 1 < es.length → (es.getD (k + 1) default).startPos =
          ((es.getD k default).startPos + (es.getD k default).size) % 4294967296)) ∧
    (∀ file info, mvl_load_entries file false = some info →
      ∃ es, mvl_parse_entries file 8 ((8 + 17 * info.entryCount) % 4294967296)
          info.entryCount = some es ∧
        info.entries.Perm es ∧
        (0 < es.length → (es.getD 0 default).startPos =
          (8 + 17 * info.entryCount) % 4294967296) ∧
        (∀ k, k + 1 < es.length → (es.getD (k + 1) default).startPos =
          ((es.getD k default).startPos + (es.getD k default).size) % 4294967296)) := by
  constructor
  · intro file info hload
    obtain ⟨es, hp, hes, hlenes⟩ := grp_load_inv file false info hload
    refine ⟨es, hp, by rw [hes]; exact sortEntries_perm strcmpBytes es, ?_, ?_⟩
    · intro hpos
      cases es with
      | nil => simp at hpos
      | cons e rest => simpa using grp_parse_head file info.entryCount 16 _ e rest hp
    · exact fun k hk => grp_parse_chain file info.entryCount 16 _ es hp k hk
  · intro file info hload
    obtain ⟨es, hp, hes, hlenes⟩ := mvl_load_inv file false info hload
    refine ⟨es, hp, by rw [hes]; exact sortEntries_perm strcmpBytes es, ?_, ?_⟩
    · intro hpos
      cases es with
      | nil => simp at hpos
      | cons e rest => simpa using mvl_parse_head file info.entryCount 8 _ e rest hp
    · exact fun k hk => mvl_parse_chain file info.entryCount 8 _ es hp k hk

/-- Counterexample for C3 as stated: a loadable 2-entry GRP archive whose
first entry has size 0xFFFFFFFF.  The on-disk startPos sequence is
[48, 47]: it is not strictly increasing, and
`entry[1].startPos ≠ entry[0].startPos + entry[0].size` without the
mod-2^32 reduction (47 ≠ 48 + 4294967295). -/
theorem claim_C3_counterexample :
    grp_parse_entries (grpSignature ++ [2, 0, 0, 0] ++
        ([65] ++ List.replicate 11 32 ++ [255, 255, 255, 255]) ++
        ([66] ++ List.replicate 11 32 ++ [0, 0, 0, 0])) 16 48 2 =
      some [⟨[65], 48, 4294967295⟩, ⟨[66], 47, 0⟩] ∧
    (grp_load_entries (grpSignature ++ [2, 0, 0, 0] ++
        ([65] ++ List.replicate 11 32 ++ [255, 255, 255, 255]) ++
        ([66] ++ List.replicate 11 32 ++ [0, 0, 0, 0])) false =
      some ⟨2, [⟨[65], 48, 4294967295⟩, ⟨[66], 47, 0⟩]⟩) ∧
    47 < 48 ∧ 47 ≠ 48 + 4294967295 := by decide

/-- Witness for C3 at a concrete archive: the 2-entry GRP file with
payload sizes 5 and 3 parses with startPos 48 = 16 + 16·2 and 53 = 48 + 5. -/
theorem claim_C3_witness :
    ∃ es, grp_parse_entries (grpSignature ++ [2, 0, 0, 0] ++
        ([70, 73, 76, 69, 49] ++ List.replicate 7 32 ++ [5, 0, 0, 0]) ++
        ([70, 73, 76, 69, 50] ++ List.replicate 7 32 ++ [3, 0, 0, 0])) 16
        ((16 + 16 * 2) % 4294967296) 2 = some es ∧
      ([⟨[70, 73, 76, 69, 49], 48, 5⟩, ⟨[70, 73, 76, 69, 50], 53, 3⟩] :
        List ArcEntry).Perm es ∧
      (0 < es.length → (es.getD 0 default).startPos = (16 + 16 * 2) % 4294967296) ∧
      (∀ k, k + 1 < es.length → (es.getD (k + 1) default).startPos =
        ((es.getD k default).startPos + (es.getD k default).size) % 4294967296) :=
  (claim_C3_startpos_recurrence).1 (grpSignature ++ [2, 0, 0, 0] ++
      ([70, 73, 76, 69, 49] ++ List.replicate 7 32 ++ [5, 0, 0, 0]) ++
      ([70, 73, 76, 69, 50] ++ List.replicate 7 32 ++ [3, 0, 0, 0]))
    ⟨2, [⟨[70, 73, 76, 69, 49], 48, 5⟩, ⟨[70, 73, 76, 69, 50], 53, 3⟩]⟩
    (by decide)

/-- C1 (amended): for every archive successfully loaded with fewer than
2^31 entries and every queried name that passes the format-plausibility
filter (no extension longer than 3 characters after the first dot, at
most 12 characters, no '/'): for GRP, if some on-disk table record has
exactly the queried (normalized) name then lookup returns such a record —
its name and size are those of a table record — and `exists` reports
true; if no record has the name, lookup fails with `NoSuchFile`, `exists`
reports false and `openForRead` returns no handle.  For MVL the same
holds with case-insensitive name matching, under the additional
hypothesis that the loaded entry sequence is sorted under the
case-insensitive comparison as well — the load itself only establishes
case-sensitive order (see C2), so this holds e.g. for archives whose
names do not mix case.  The entry-count bound is necessary: the search
initializes `hi` to the unsigned `entryCount - 1` cast to
`PHYSFS_sint32`, so on a container whose entry count makes that cast
negative the loop never runs and every lookup of a filter-passing name —
present or not — fails with `NoSuchFile` (third conjunct). -/
theorem claim_C1_lookup_total_filtered :
    (∀ file info name, grp_load_entries file false = some info →
      info.entries.length < 2147483648 →
      ¬((name.dropWhile (fun b => b != 46)) ≠ [] ∧
          (name.dropWhile (fun b => b != 46)).length > 4) →
      ¬(name.length > 12) → ¬(name.contains 47 = true) →
      ∃ es, grp_parse_entries file 16 ((16 + 16 * info.entryCount) % 4294967296)
          info.entryCount = some es ∧
        ((∃ e ∈ es, e.name = name) →
          ∃ e, grp_find_entry info name = .ok e ∧ e.name = name ∧ e ∈ es ∧
            GRP_exists info name = true) ∧
        ((∀ e ∈ es, e.name ≠ name) →
          grp_find_entry info name = .error .noSuchFile ∧
          GRP_exists info name = false ∧
          ∀ po ps, GRP_openRead info name po ps = none)) ∧
    (∀ file info name, mvl_load_entries file false = some info →
      info.entries.length < 2147483648 →
      info.entries.Pairwise (fun x y => stricmpBytes x.name y.name ≤ 0) →
      ¬((name.dropWhile (fun b => b != 46)) ≠ [] ∧
          (name.dropWhile (fun b => b != 46)).length > 4) →
      ¬(name.length > 12) → ¬(name.contains 47 = true) →
      ∃ es, mvl_parse_entries file 8 ((8 + 17 * info.entryCount) % 4294967296)
          info.entryCount = some es ∧
        ((∃ e ∈ es, stricmpBytes name e.name = 0) →
          ∃ e, mvl_find_entry info name = .ok e ∧ stricmpBytes name e.name = 0 ∧
            e ∈ es ∧ MVL_exists info name = true) ∧
        ((∀ e ∈ es, stricmpBytes name e.name ≠ 0) →
          mvl_find_entry info name = .error .noSuchFile ∧
          MVL_exists info name = false ∧
          ∀ po ps, MVL_openRead info name po ps = none)) ∧
    (∀ (ginfo : GRPinfo) (minfo : MVLinfo) (name : List Nat),
      searchInitHi ginfo.entryCount < 0 → searchInitHi minfo.entryCount < 0 →
      ¬((name.dropWhile (fun b => b != 46)) ≠ [] ∧
          (name.dropWhile (fun b => b != 46)).length > 4) →
      ¬(name.length > 12) → ¬(name.contains 47 = true) →
      grp_find_entry ginfo name = .error .noSuchFile ∧
      mvl_find_entry minfo name = .error .noSuchFile) := by
  refine ⟨?_, ?_, ?_⟩
  · intro file info name hload hlen h1 h2 h3
    obtain ⟨es, hp, hes, hlenes⟩ := grp_load_inv file false info hload
    have hperm : info.entries.Perm es := by
      rw [hes]; exact sortEntries_perm strcmpBytes es
    have hlook := grp_lookup_correct info name (grp_load_sorted _ _ _ hload)
      (grp_load_count _ _ _ hload) hlen h1 h2 h3
    refine ⟨es, hp, ?_, ?_⟩
    · rintro ⟨e, he, hn⟩
      obtain ⟨f, hfind, hfn, hfm⟩ := hlook.1 ⟨e, hperm.mem_iff.mpr he, hn⟩
      refine ⟨f, hfind, hfn, hperm.mem_iff.mp hfm, ?_⟩
      unfold GRP_exists
      rw [hfind]
    · intro hall
      have herr := hlook.2 (fun e he => hall e (hperm.mem_iff.mp he))
      refine ⟨herr, ?_, ?_⟩
      · unfold GRP_exists; rw [herr]
      · intro po ps; unfold GRP_openRead; rw [herr]
  · intro file info name hload hlen hsorted2 h1 h2 h3
    obtain ⟨es, hp, hes, hlenes⟩ := mvl_load_inv file false info hload
    have hperm : info.entries.Perm es := by
      rw [hes]; exact sortEntries_perm strcmpBytes es
    have hlook := mvl_lookup_correct info name hsorted2
      (mvl_load_count _ _ _ hload) hlen h1 h2 h3
    refine ⟨es, hp, ?_, ?_⟩
    · rintro ⟨e, he, hn⟩
      obtain ⟨f, hfind, hfn, hfm⟩ := hlook.1 ⟨e, hperm.mem_iff.mpr he, hn⟩
      refine ⟨f, hfind, hfn, hperm.mem_iff.mp hfm, ?_⟩
      unfold MVL_exists
      rw [hfind]
    · intro hall
      have herr := hlook.2 (fun e he => hall e (hperm.mem_iff.mp he))
      refine ⟨herr, ?_, ?_⟩
      · unfold MVL_exists; rw [herr]
      · intro po ps; unfold MVL_openRead; rw [herr]
  · intro ginfo minfo name hgneg hmneg h1 h2 h3
    have hgf : (searchInitHi ginfo.entryCount + 1).toNat = 0 := by omega
    have hmf : (searchInitHi minfo.entryCount + 1).toNat = 0 := by omega
    have hgb : (bsearchGo strcmpBytes ginfo.entries name
        (searchInitHi ginfo.entryCount + 1).toNat 0
        (searchInitHi ginfo.entryCount)).1 = none := by rw [hgf]; rfl
    have hmb : (bsearchGo stricmpBytes minfo.entries name
        (searchInitHi minfo.entryCount + 1).toNat 0
        (searchInitHi minfo.entryCount)).1 = none := by rw [hmf]; rfl
    exact ⟨(grp_find_none ginfo name h1 h2 h3 hgb).1,
      (mvl_find_none minfo name h1 h2 h3 hmb).1⟩

/-- Counterexample for C1 as stated: a loadable one-entry GRP archive
whose single table record is named `A.BCDE` (a 4-character extension,
permitted on disk since it fits the 12-byte space-padded field).  The
name is present in the on-disk table and in the container, yet lookup
reports `NoSuchFile` and `exists` reports false, because the
plausibility pre-filter rejects the name before searching. -/
theorem claim_C1_counterexample :
    grp_load_entries (grpSignature ++ [1, 0, 0, 0] ++
        ([65, 46, 66, 67, 68, 69] ++ List.replicate 6 32 ++ [0, 0, 0, 0])) false =
      some ⟨1, [⟨[65, 46, 66, 67, 68, 69], 32, 0⟩]⟩ ∧
    grp_find_entry ⟨1, [⟨[65, 46, 66, 67, 68, 69], 32, 0⟩]⟩
      [65, 46, 66, 67, 68, 69] = .error .noSuchFile ∧
    GRP_exists ⟨1, [⟨[65, 46, 66, 67, 68, 69], 32, 0⟩]⟩
      [65, 46, 66, 67, 68, 69] = false := by decide

/-- Witness for C1 at concrete archives: the 2-entry GRP file bundling
`FILE1` and `FILE2` (the lookup of `FILE2` hits), and a 2-entry MVL file
bundling `AA` and `BB`, whose names are case-insensitively sorted, with
the lower-case query `aa`; finally, containers with entry count
2^31 + 1 (whose sint32 cast is negative) reject the name `X`. -/
theorem claim_C1_witness :
    (∃ es, grp_parse_entries (grpSignature ++ [2, 0, 0, 0] ++
        ([70, 73, 76, 69, 49] ++ List.replicate 7 32 ++ [5, 0, 0, 0]) ++
        ([70, 73, 76, 69, 50] ++ List.replicate 7 32 ++ [3, 0, 0, 0])) 16
        ((16 + 16 * 2) % 4294967296) 2 = some es ∧
      ((∃ e ∈ es, e.name = [70, 73, 76, 69, 50]) →
        ∃ e, grp_find_entry
            ⟨2, [⟨[70, 73, 76, 69, 49], 48, 5⟩, ⟨[70, 73, 76, 69, 50], 53, 3⟩]⟩
            [70, 73, 76, 69, 50] = .ok e ∧
          e.name = [70, 73, 76, 69, 50] ∧ e ∈ es ∧
          GRP_exists
            ⟨2, [⟨[70, 73, 76, 69, 49], 48, 5⟩, ⟨[70, 73, 76, 69, 50], 53, 3⟩]⟩
            [70, 73, 76, 69, 50] = true) ∧
      ((∀ e ∈ es, e.name ≠ [70, 73, 76, 69, 50]) →
        grp_find_entry
            ⟨2, [⟨[70, 73, 76, 69, 49], 48, 5⟩, ⟨[70, 73, 76, 69, 50], 53, 3⟩]⟩
            [70, 73, 76, 69, 50] = .error .noSuchFile ∧
        GRP_exists
            ⟨2, [⟨[70, 73, 76, 69, 49], 48, 5⟩, ⟨[70, 73, 76, 69, 50], 53, 3⟩]⟩
            [70, 73, 76, 69, 50] = false ∧
        ∀ po ps, GRP_openRead
            ⟨2, [⟨[70, 73, 76, 69, 49], 48, 5⟩, ⟨[70, 73, 76, 69, 50], 53, 3⟩]⟩
            [70, 73, 76, 69, 50] po ps = none)) ∧
    (∃ es, mvl_parse_entries (mvlSignature ++ [2, 0, 0, 0] ++
        ([65, 65] ++ List.replicate 11 0 ++ [0, 0, 0, 0]) ++
        ([66, 66] ++ List.replicate 11 0 ++ [0, 0, 0, 0])) 8
        ((8 + 17 * 2) % 4294967296) 2 = some es ∧
      ((∃ e ∈ es, stricmpBytes [97, 97] e.name = 0) →
        ∃ e, mvl_find_entry ⟨2, [⟨[65, 65], 42, 0⟩, ⟨[66, 66], 42, 0⟩]⟩
            [97, 97] = .ok e ∧
          stricmpBytes [97, 97] e.name = 0 ∧ e ∈ es ∧
          MVL_exists ⟨2, [⟨[65, 65], 42, 0⟩, ⟨[66, 66], 42, 0⟩]⟩ [97, 97] = true) ∧
      ((∀ e ∈ es, stricmpBytes [97, 97] e.name ≠ 0) →
        mvl_find_entry ⟨2, [⟨[65, 65], 42, 0⟩, ⟨[66, 66], 42, 0⟩]⟩ [97, 97] =
          .error .noSuchFile ∧
        MVL_exists ⟨2, [⟨[65, 65], 42, 0⟩, ⟨[66, 66], 42, 0⟩]⟩ [97, 97] = false ∧
        ∀ po ps, MVL_openRead ⟨2, [⟨[65, 65], 42, 0⟩, ⟨[66, 66], 42, 0⟩]⟩
          [97, 97] po ps = none)) ∧
    (grp_find_entry ⟨2147483649, []⟩ [88] = .error .noSuchFile ∧
     mvl_find_entry ⟨2147483649, []⟩ [88] = .error .noSuchFile) :=
  ⟨claim_C1_lookup_total_filtered.1 (grpSignature ++ [2, 0, 0, 0] ++
      ([70, 73, 76, 69, 49] ++ List.replicate 7 32 ++ [5, 0, 0, 0]) ++
      ([70, 73, 76, 69, 50] ++ List.replicate 7 32 ++ [3, 0, 0, 0]))
    ⟨2, [⟨[70, 73, 76, 69, 49], 48, 5⟩, ⟨[70, 73, 76, 69, 50], 53, 3⟩]⟩
    [70, 73, 76, 69, 50] (by decide) (by decide) (by decide) (by decide)
    (by decide),
   claim_C1_lookup_total_filtered.2.1 (mvlSignature ++ [2, 0, 0, 0] ++
      ([65, 65] ++ List.replicate 11 0 ++ [0, 0, 0, 0]) ++
      ([66, 66] ++ List.replicate 11 0 ++ [0, 0, 0, 0]))
    ⟨2, [⟨[65, 65], 42, 0⟩, ⟨[66, 66], 42, 0⟩]⟩
    [97, 97] (by decide) (by decide) (by decide) (by decide) (by decide)
    (by decide),
   claim_C1_lookup_total_filtered.2.2 ⟨2147483649, []⟩ ⟨2147483649, []⟩ [88]
    (by decide) (by decide) (by decide) (by decide) (by decide)⟩
